import Mathlib

/-!
Verification of the LocalHosted tunnel-relay core: a shallow embedding of
the tunnel registry (`TunnelRegistry` in `registry.ts`), the subdomain
sanitizer and register handler (`wsHandler.ts`), and the HTTP response
mapping of the proxy adapter (`proxy.ts`), together with theorems settling
the specification's claims about them.

Conventions of the embedding:
* WebSocket handles are natural numbers; `readyState` values follow the
  `ws` library constants (1 = OPEN, 2 = CLOSING).
* UUIDs, completion sinks (promise resolve/reject pairs) and timers are
  allocated from counters carried in the state.
* Every observable side effect of an operation (completing a waiter,
  canceling a timer, sending a frame, closing a channel, mutating the
  maps) is recorded, in source order, in a trace of `Act`s.
* JavaScript `Map`s are association lists in insertion order; `set` on an
  existing key updates in place, `delete` removes the key.
* Sending on a channel may fail synchronously (the `ws.send` call throws);
  the environment's choice is the `sendOk` field of the state: `none`
  means the send succeeds, `some msg` means it throws an error carrying
  `msg`.
-/

/-- A waiter parked in a tunnel's pending table: the completion sink
(the promise's resolve/reject pair, identified by `sinkId`) and the
deadline timer handle (the source's `timeout` field). -/
structure Waiter where
  sinkId : Nat
  timeout : Nat
deriving DecidableEq, Repr

/-- `TunnelRequest` from `registry.ts`: the body is an optional
base64-encoded string. -/
structure TunnelRequest where
  id : String
  method : String
  path : String
  headers : List (String × String)
  body : Option String
deriving DecidableEq, Repr

/-- `TunnelResponse` from `registry.ts`. -/
structure TunnelResponse where
  id : String
  statusCode : Nat
  headers : List (String × String)
  body : Option String
deriving DecidableEq, Repr

/-- `TunnelClient` from `registry.ts`: per-tunnel state. `ws` is the
channel handle, `pendingRequests` maps request ids to waiters. -/
structure TunnelClient where
  id : Nat
  subdomain : String
  localPort : Nat
  ws : Nat
  connectedAt : Nat
  requestCount : Nat
  pendingRequests : List (String × Waiter)
deriving DecidableEq, Repr

/-- Frames sent by the server on a tunnel channel. -/
inductive Frame where
  | request (data : TunnelRequest)
  | tunnelReady (url : String) (subdomain : String) (id : Nat)
  | ping
  | errorMsg (message : String)
deriving DecidableEq, Repr

/-- One observable side effect of a registry operation, recorded in
source order. -/
inductive Act where
  | setTimer (timerId : Nat) (ms : Nat)
  | clearTimer (timerId : Nat)
  | pendingInsert (subdomain : String) (reqId : String) (sinkId : Nat) (timerId : Nat)
  | pendingDelete (subdomain : String) (reqId : String)
  | pendingClear (subdomain : String)
  | resolveSink (sinkId : Nat) (response : TunnelResponse)
  | rejectSink (sinkId : Nat) (message : String)
  | closeChannel (chan : Nat) (code : Nat) (reason : String)
  | send (chan : Nat) (frame : Frame)
  | mapDelete (subdomain : String)
  | mapInsert (subdomain : String)
  | incCount (subdomain : String)
deriving DecidableEq, Repr

/-- Outcome of the synchronous part of `forwardRequest`: either one of the
source's `throw`s, a synchronous send failure rejecting the promise with
the thrown error, or a successfully parked waiter. -/
inductive ForwardOutcome where
  | noTunnel
  | notOpen
  | sendError (message : String)
  | parked (sinkId : Nat)
deriving DecidableEq, Repr

/-- State of a `TunnelRegistry` plus the environment it observes:
channel ready states, send-failure behaviour, and allocation counters for
UUIDs, sinks and timers. -/
structure RegState where
  tunnels : List (String × TunnelClient)
  chanState : Nat → Nat
  sendOk : Nat → Option String
  nextUuid : Nat
  nextSink : Nat
  nextTimer : Nat
  clock : Nat

/-- JavaScript `Map.get`. -/
def mapGet {α : Type} : List (String × α) → String → Option α
  | [], _ => none
  | (k, v) :: rest, key => if k = key then some v else mapGet rest key

/-- JavaScript `Map.set`: update in place if the key is present
(keeping its position), otherwise append. -/
def mapSet {α : Type} : List (String × α) → String → α → List (String × α)
  | [], key, v => [(key, v)]
  | (k, w) :: rest, key, v =>
      if k = key then (key, v) :: rest else (k, w) :: mapSet rest key v

/-- JavaScript `Map.delete`. -/
def mapDel {α : Type} : List (String × α) → String → List (String × α)
  | [], _ => []
  | (k, v) :: rest, key =>
      if k = key then mapDel rest key else (k, v) :: mapDel rest key

/-- The rejection loop of `TunnelRegistry.remove`: for each pending
waiter, in table order, cancel its timer and reject it with the
tunnel-disconnected error. -/
def rejectionActs : List (String × Waiter) → List Act
  | [] => []
  | (_, p) :: rest =>
      Act.clearTimer p.timeout :: Act.rejectSink p.sinkId "Tunnel disconnected"
        :: rejectionActs rest

/-- `readyState` constant `WebSocket.OPEN` of the `ws` library. -/
def wsOPEN : Nat := 1

/-- `TunnelRegistry.remove`: if the subdomain is present, reject every
pending waiter with `Error('Tunnel disconnected')` (canceling its timer),
clear the pending table, close the channel with code 1000 if it is still
open, and delete the map entry; otherwise do nothing. -/
def removeTunnel (st : RegState) (subdomain : String) : RegState × List Act :=
  match mapGet st.tunnels subdomain with
  | none => (st, [])
  | some client =>
      ({ st with
          tunnels := mapDel st.tunnels subdomain,
          chanState := fun x =>
            if st.chanState client.ws = wsOPEN ∧ x = client.ws then 2 else st.chanState x },
       rejectionActs client.pendingRequests
         ++ [Act.pendingClear subdomain]
         ++ (if st.chanState client.ws = wsOPEN then
              [Act.closeChannel client.ws 1000 "Tunnel removed"] else [])
         ++ [Act.mapDelete subdomain])

/-- `TunnelRegistry.register`: evict any existing holder of the subdomain
via `removeTunnel`, then insert a fresh client (fresh UUID, request count
0, empty pending table) and return it. -/
def register (st : RegState) (subdomain : String) (localPort : Nat) (ws : Nat) :
    RegState × List Act × TunnelClient :=
  let pr := if (mapGet st.tunnels subdomain).isSome then removeTunnel st subdomain
            else (st, [])
  let client : TunnelClient :=
    { id := pr.1.nextUuid, subdomain := subdomain, localPort := localPort, ws := ws,
      connectedAt := pr.1.clock, requestCount := 0, pendingRequests := [] }
  ({ pr.1 with
      tunnels := mapSet pr.1.tunnels subdomain client,
      nextUuid := pr.1.nextUuid + 1 },
   pr.2 ++ [Act.mapInsert subdomain], client)

/-- `TunnelRegistry.get`. -/
def getTunnel (st : RegState) (subdomain : String) : Option TunnelClient :=
  mapGet st.tunnels subdomain

/-- The synchronous part of `TunnelRegistry.forwardRequest`: look the
tunnel up; if absent throw; if the channel is not open remove the tunnel
and throw; otherwise create the deadline timer, insert the waiter into
the pending table, send the `{type:'request', data}` frame and increment
`requestCount`. A synchronous send failure aborts the promise executor
after the insertion, leaving the waiter parked and the count untouched. -/
def forwardRequest (st : RegState) (subdomain : String) (request : TunnelRequest)
    (timeoutMs : Nat) : RegState × List Act × ForwardOutcome :=
  match mapGet st.tunnels subdomain with
  | none => (st, [], ForwardOutcome.noTunnel)
  | some client =>
      if st.chanState client.ws ≠ wsOPEN then
        let pr := removeTunnel st subdomain
        (pr.1, pr.2, ForwardOutcome.notOpen)
      else
        let timerId := st.nextTimer
        let sinkId := st.nextSink
        let pend := mapSet client.pendingRequests request.id ⟨sinkId, timerId⟩
        let preActs := [Act.setTimer timerId timeoutMs,
                        Act.pendingInsert subdomain request.id sinkId timerId]
        match st.sendOk client.ws with
        | some msg =>
            ({ st with
                tunnels := mapSet st.tunnels subdomain { client with pendingRequests := pend },
                nextSink := st.nextSink + 1, nextTimer := st.nextTimer + 1 },
             preActs, ForwardOutcome.sendError msg)
        | none =>
            ({ st with
                tunnels := mapSet st.tunnels subdomain
                  { client with pendingRequests := pend,
                                requestCount := client.requestCount + 1 },
                nextSink := st.nextSink + 1, nextTimer := st.nextTimer + 1 },
             preActs ++ [Act.send client.ws (Frame.request request),
                         Act.incCount subdomain],
             ForwardOutcome.parked sinkId)

/-- `TunnelRegistry.handleResponse`: scan the registry in insertion order
for the first client owning the channel; look the response id up in its
pending table; if found, cancel the timer, delete the entry and resolve
the sink with the response; otherwise drop the frame. -/
def handleResponse (st : RegState) (ws : Nat) (response : TunnelResponse) :
    RegState × List Act :=
  match st.tunnels.find? (fun p => p.2.ws == ws) with
  | none => (st, [])
  | some (sub, client) =>
      match mapGet client.pendingRequests response.id with
      | none => (st, [])
      | some pending =>
          let client' := { client with
                            pendingRequests := mapDel client.pendingRequests response.id }
          ({ st with tunnels := mapSet st.tunnels sub client' },
           [Act.clearTimer pending.timeout,
            Act.pendingDelete sub response.id,
            Act.resolveSink pending.sinkId response])

/-! ### Subdomain sanitizer (`wsHandler.ts`) -/

/-- One character of the class `[a-z0-9-]` used by `sanitizeSubdomain`'s
first regex. -/
def isAllowedChar (c : Char) : Bool :=
  (97 ≤ c.toNat && c.toNat ≤ 122) || (48 ≤ c.toNat && c.toNat ≤ 57) || c.toNat == 45

/-- The ASCII fragment of `String.prototype.toLowerCase`, applied per
character. The real JavaScript method performs Unicode Default Case
Conversion, whose mappings can even lengthen the string (SpecialCasing,
e.g. U+0130 lowercases to a two-unit sequence); this ASCII fragment
agrees with it on all ASCII inputs, and in particular fixes every
character of `[a-z0-9-]`, exactly as the Unicode mapping does. Theorems
whose truth could depend on the behaviour of lowercasing outside
`[a-z0-9-]` are therefore stated over `sanitizeListWith`, which is
parametric in the per-character lowercase expansion; `jsToLower` is used
to instantiate them and to evaluate the sanitizer on concrete ASCII
inputs, where it coincides with the source. -/
def jsToLower (c : Char) : Char :=
  if 65 ≤ c.toNat ∧ c.toNat ≤ 90 then Char.ofNat (c.toNat + 32) else c

/-- The regex `.replace(/[^a-z0-9-]/g, '-')`, per character. -/
def replaceDisallowed (c : Char) : Char :=
  if isAllowedChar c then c else '-'

/-- The sanitizer's second regex replacement: collapse every run of
dashes to a single dash. -/
def collapseDashes : List Char → List Char
  | [] => []
  | [c] => [c]
  | c :: d :: rest =>
      if c = '-' ∧ d = '-' then collapseDashes (d :: rest)
      else c :: collapseDashes (d :: rest)

/-- The `^-` half of `.replace(/^-|-$/g, '')`: remove one leading dash. -/
def removeOneLeadingDash : List Char → List Char
  | [] => []
  | c :: rest => if c = '-' then rest else c :: rest

/-- The `-$` half of `.replace(/^-|-$/g, '')`: remove one trailing dash. -/
def removeOneTrailingDash : List Char → List Char
  | [] => []
  | [c] => if c = '-' then [] else [c]
  | c :: d :: rest => c :: removeOneTrailingDash (d :: rest)

/-- Apply a per-character expansion to every character and concatenate
(the shape of a Unicode case mapping, which may lengthen the string). -/
def expandMap (low : Char → List Char) : List Char → List Char
  | [] => []
  | c :: rest => low c ++ expandMap low rest

/-- `sanitizeSubdomain` of `wsHandler.ts` on character lists, parametric
in the per-character lowercase expansion `low` (so that it covers the
real Unicode `toLowerCase`, not just its ASCII fragment): lowercase,
replace disallowed characters by dashes, collapse dash runs, trim one
leading and one trailing dash, truncate to 63 characters
(`substring(0, 63)`). -/
def sanitizeListWith (low : Char → List Char) (l : List Char) : List Char :=
  List.take 63
    (removeOneTrailingDash (removeOneLeadingDash
      (collapseDashes ((expandMap low l).map replaceDisallowed))))

/-- `sanitizeSubdomain` of `wsHandler.ts` on character lists, with the
lowercase step instantiated to the ASCII fragment. -/
def sanitizeList (l : List Char) : List Char :=
  List.take 63
    (removeOneTrailingDash (removeOneLeadingDash
      (collapseDashes ((l.map jsToLower).map replaceDisallowed))))

/-- `sanitizeSubdomain` of `wsHandler.ts` (ASCII-instantiated lowercase;
faithful to the source on ASCII inputs). -/
def sanitizeSubdomain (s : String) : String :=
  String.mk (sanitizeList s.data)

/-- JavaScript `a || b` on an optional string: `undefined` and `""` are
falsy. -/
def jsStringOr (a : Option String) (b : String) : String :=
  match a with
  | some s => if s = "" then b else s
  | none => b

/-- The subdomain chosen by the `register` branch of `handleMessage`:
`(message.subdomain as string) || requestedSubdomain || generateSubdomain()`. -/
def chooseSubdomain (msgSub : Option String) (hdrHint : Option String)
    (generated : String) : String :=
  jsStringOr msgSub (jsStringOr hdrHint generated)

/-- The `register` branch of `handleMessage` in `wsHandler.ts`: sanitize
the chosen subdomain, register it, and send the tunnel-ready frame. -/
def handleRegister (st : RegState) (ws : Nat) (msgSub hdrHint : Option String)
    (generated : String) (localPort : Nat) (domain : String) :
    RegState × List Act × TunnelClient :=
  let sub := sanitizeSubdomain (chooseSubdomain msgSub hdrHint generated)
  let r := register st sub localPort ws
  (r.1,
   r.2.1 ++ [Act.send ws
     (Frame.tunnelReady ("https://" ++ sub ++ "." ++ domain) sub r.2.2.id)],
   r.2.2)

/-- No two consecutive dashes anywhere in the list. -/
def noDD : List Char → Bool
  | c :: d :: rest => (!(c == '-' && d == '-')) && noDD (d :: rest)
  | _ => true

/-- The list does not start with a dash. -/
def headND : List Char → Bool
  | [] => true
  | c :: _ => !(c == '-')

/-- The list does not end with a dash. -/
def lastND : List Char → Bool
  | [] => true
  | [c] => !(c == '-')
  | _ :: d :: rest => lastND (d :: rest)

/-- Modelled from the spec (§3 data model): the subdomain label grammar,
1 to 63 characters of `[a-z0-9-]`, no leading/trailing dash, no
consecutive dashes. The repository has no validator for it; this
definition only serves to state that a registered subdomain can fall
outside the grammar. -/
def specValidLabel (s : String) : Bool :=
  (!s.data.isEmpty) && (s.data.length ≤ 63) && s.data.all isAllowedChar
    && headND s.data && lastND s.data && noDD s.data

/-! ### HTTP adapter response mapping (`proxy.ts`) -/

/-- `key.toLowerCase()` on a whole string (ASCII range). -/
def jsLower (s : String) : String :=
  String.mk (s.data.map jsToLower)

/-- `HOP_BY_HOP_HEADERS` of `proxy.ts`. -/
def hopByHopHeaders : List String :=
  ["connection", "keep-alive", "proxy-authenticate", "proxy-authorization",
   "te", "trailer", "transfer-encoding", "upgrade"]

/-- `HOP_BY_HOP_HEADERS.has` on an already-lowercased name. -/
def isHop (name : String) : Bool :=
  hopByHopHeaders.contains name

/-- Node's `res.setHeader`: replace the value (and name casing) of the
header matching case-insensitively, keeping its position; otherwise
append. -/
def setHeader : List (String × String) → String → String → List (String × String)
  | [], k, v => [(k, v)]
  | (k', v') :: rest, k, v =>
      if jsLower k' = jsLower k then (k, v) :: rest
      else (k', v') :: setHeader rest k v

/-- The response-header loop of the proxy: for each tunnel-response
header in order, set it on the public response unless its lowercased
name is hop-by-hop. -/
def applyTunnelHeaders (res : List (String × String)) :
    List (String × String) → List (String × String)
  | [] => res
  | (k, v) :: rest =>
      applyTunnelHeaders (if isHop (jsLower k) then res else setHeader res k v) rest

/-- Value of one base64 alphabet character. -/
def base64Val (c : Char) : Option Nat :=
  let n := c.toNat
  if 65 ≤ n ∧ n ≤ 90 then some (n - 65)
  else if 97 ≤ n ∧ n ≤ 122 then some (n - 97 + 26)
  else if 48 ≤ n ∧ n ≤ 57 then some (n - 48 + 52)
  else if n = 43 then some 62
  else if n = 47 then some 63
  else none

/-- Pack a list of 6-bit values into bytes, Node-style (a trailing group
of 2 or 3 sextets yields 1 or 2 bytes). -/
def base64Pack : List Nat → List Nat
  | a :: b :: c :: d :: rest =>
      (a * 4 + b / 16) :: ((b % 16) * 16 + c / 4) :: ((c % 4) * 64 + d) :: base64Pack rest
  | [a, b] => [a * 4 + b / 16]
  | [a, b, c] => [a * 4 + b / 16, (b % 16) * 16 + c / 4]
  | _ => []

/-- `Buffer.from(s, 'base64')`: ignore characters outside the alphabet
(including padding), decode the sextets into bytes. -/
def base64Decode (s : String) : List Nat :=
  base64Pack (s.data.filterMap base64Val)

/-- The public HTTP response assembled by the proxy adapter. -/
structure PublicResponse where
  statusCode : Nat
  headers : List (String × String)
  body : List Nat
deriving DecidableEq, Repr

/-- The success branch of the proxy adapters (`createProxyMiddleware` and
`createPathBasedProxy`): copy the tunnel response's headers minus the
hop-by-hop ones, add the two `X-*` headers, set the status code, and
write the base64-decoded body (empty when the body is absent or the
empty string, which is falsy). -/
def buildPublicResponse (subdomain : String) (t : TunnelResponse) : PublicResponse :=
  let hs1 := applyTunnelHeaders [] t.headers
  let hs2 := setHeader hs1 "X-Powered-By" "LocalHosted"
  let hs3 := setHeader hs2 "X-Tunnel-Subdomain" subdomain
  { statusCode := t.statusCode,
    headers := hs3,
    body := match t.body with
            | some b => if b = "" then [] else base64Decode b
            | none => [] }

/-- The lowercased header names of a header list. -/
def lowerKeys (hs : List (String × String)) : List String :=
  hs.map (fun kv => jsLower kv.1)

/-- No string occurs twice in the list. -/
def noDupStr : List String → Bool
  | [] => true
  | s :: rest => rest.all (fun t => !(t == s)) && noDupStr rest

/-- Number of frames transmitted in a trace. -/
def sendCount : List Act → Nat
  | [] => 0
  | Act.send _ _ :: rest => sendCount rest + 1
  | _ :: rest => sendCount rest

/-! ### Concrete fixtures used by the witness and counterexample theorems -/

def waiterA : Waiter := ⟨10, 20⟩

def waiterB : Waiter := ⟨11, 21⟩

/-- A tunnel on open channel 7 with two pending waiters. -/
def clientA : TunnelClient :=
  { id := 0, subdomain := "a", localPort := 3000, ws := 7, connectedAt := 0,
    requestCount := 2, pendingRequests := [("r1", waiterA), ("r2", waiterB)] }

def stA : RegState :=
  { tunnels := [("a", clientA)], chanState := fun _ => 1, sendOk := fun _ => none,
    nextUuid := 5, nextSink := 12, nextTimer := 22, clock := 100 }

/-- A freshly registered tunnel on channel 7 with nothing pending. -/
def clientF : TunnelClient :=
  { id := 1, subdomain := "a", localPort := 3000, ws := 7, connectedAt := 0,
    requestCount := 0, pendingRequests := [] }

/-- A registry whose only channel is open but fails every send with an
`EPIPE` error. -/
def stF : RegState :=
  { tunnels := [("a", clientF)], chanState := fun _ => 1, sendOk := fun _ => some "EPIPE",
    nextUuid := 2, nextSink := 0, nextTimer := 0, clock := 0 }

/-- A registry identical to `stF` whose sends succeed. -/
def stG : RegState :=
  { tunnels := [("a", clientF)], chanState := fun _ => 1, sendOk := fun _ => none,
    nextUuid := 2, nextSink := 0, nextTimer := 0, clock := 0 }

def reqF : TunnelRequest :=
  { id := "r9", method := "GET", path := "/", headers := [], body := none }

/-- A response whose id matches no pending waiter. -/
def respZ : TunnelResponse :=
  { id := "zz", statusCode := 200, headers := [], body := none }

/-- A response matching waiter `r1` of `clientA`. -/
def respR1 : TunnelResponse :=
  { id := "r1", statusCode := 200, headers := [], body := none }

/-- A tunnel response with one ordinary header, one hop-by-hop header and
a base64 body decoding to `OK`. -/
def respT : TunnelResponse :=
  { id := "r1", statusCode := 201,
    headers := [("Content-Type", "text/plain"), ("Connection", "close")],
    body := some "T0s=" }

/-- An empty registry. -/
def stEmpty : RegState :=
  { tunnels := [], chanState := fun _ => 1, sendOk := fun _ => none,
    nextUuid := 0, nextSink := 0, nextTimer := 0, clock := 0 }

/-- 64 dashes: longer than 63, sanitized to the empty string. -/
def dashes64 : String := String.mk (List.replicate 64 '-')

/-- 62 letters, a dash, two letters: sanitization truncates to 63
characters ending in a dash, so a second sanitization trims further. -/
def trunc65 : String := String.mk (List.replicate 62 'a' ++ ['-', 'a', 'a'])

/-! ### Map lemmas -/

theorem mapGet_mapSet_self {α : Type} (m : List (String × α)) (k : String) (v : α) :
    mapGet (mapSet m k v) k = some v := by
  induction m with
  | nil => simp [mapSet, mapGet]
  | cons p rest ih =>
      obtain ⟨a, b⟩ := p
      by_cases hk : a = k
      · simp [mapSet, mapGet, hk]
      · simp [mapSet, mapGet, hk, ih]

theorem mapGet_mapDel_self {α : Type} (m : List (String × α)) (k : String) :
    mapGet (mapDel m k) k = none := by
  induction m with
  | nil => simp [mapDel, mapGet]
  | cons p rest ih =>
      obtain ⟨a, b⟩ := p
      by_cases hk : a = k
      · simp [mapDel, hk, ih]
      · simp [mapDel, mapGet, hk, ih]

theorem mem_rejectionActs (p : String × Waiter) (l : List (String × Waiter))
    (hp : p ∈ l) :
    Act.clearTimer p.2.timeout ∈ rejectionActs l ∧
    Act.rejectSink p.2.sinkId "Tunnel disconnected" ∈ rejectionActs l := by
  induction l with
  | nil => cases hp
  | cons q rest ih =>
      obtain ⟨r, w⟩ := q
      rcases List.mem_cons.mp hp with h | h
      · subst h
        simp [rejectionActs]
      · have := ih h
        simp only [rejectionActs, List.mem_cons]
        exact ⟨Or.inr (Or.inr this.1), Or.inr (Or.inr this.2)⟩

/-! ### Claim theorems: registry lifecycle -/

/-- C3: `Remove(subdomain)` on a present entry emits, in source order,
exactly one timer cancellation and one completion with the
tunnel-disconnected error per waiter that was pending at entry (the trace
equality pins down exactly one `rejectSink` per waiter), then clears the
pending table, closes the channel with normal-closure code 1000 if it is
still open, and deletes the subdomain from the registry, which afterwards
no longer contains it; on an absent subdomain it changes nothing. -/
theorem remove_completes_all_waiters (st : RegState) (sub : String) :
    (∀ c, mapGet st.tunnels sub = some c →
        ((removeTunnel st sub).2 =
            rejectionActs c.pendingRequests ++ [Act.pendingClear sub]
              ++ (if st.chanState c.ws = wsOPEN then
                    [Act.closeChannel c.ws 1000 "Tunnel removed"] else [])
              ++ [Act.mapDelete sub]
          ∧ mapGet (removeTunnel st sub).1.tunnels sub = none
          ∧ ∀ p ∈ c.pendingRequests,
              Act.clearTimer p.2.timeout ∈ (removeTunnel st sub).2
              ∧ Act.rejectSink p.2.sinkId "Tunnel disconnected" ∈ (removeTunnel st sub).2)) ∧
    (mapGet st.tunnels sub = none → removeTunnel st sub = (st, [])) := by
  constructor
  · intro c hc
    refine ⟨by simp [removeTunnel, hc], by simp [removeTunnel, hc, mapGet_mapDel_self], ?_⟩
    intro p hp
    have hm := mem_rejectionActs p c.pendingRequests hp
    simp only [removeTunnel, hc, List.mem_append]
    exact ⟨Or.inl (Or.inl (Or.inl hm.1)), Or.inl (Or.inl (Or.inl hm.2))⟩
  · intro hc
    simp [removeTunnel, hc]

/-- Witness for C3 at a concrete registry holding subdomain `a` with two
pending waiters on an open channel. -/
theorem remove_completes_all_waiters_witness :
    mapGet stA.tunnels "a" = some clientA ∧
    (removeTunnel stA "a").2 =
      [Act.clearTimer 20, Act.rejectSink 10 "Tunnel disconnected",
       Act.clearTimer 21, Act.rejectSink 11 "Tunnel disconnected",
       Act.pendingClear "a", Act.closeChannel 7 1000 "Tunnel removed",
       Act.mapDelete "a"] ∧
    mapGet (removeTunnel stA "a").1.tunnels "a" = none := by
  obtain ⟨htrace, hnone, -⟩ :=
    (remove_completes_all_waiters stA "a").1 clientA (by decide)
  refine ⟨by decide, ?_, hnone⟩
  rw [htrace]
  decide

/-- C1: re-registering an occupied subdomain evicts the prior holder
before inserting the new entry: the trace first completes every pending
waiter of the prior entry with the tunnel-disconnected error (canceling
its timer), clears its pending table, closes the prior channel with
normal-closure code 1000 if it is still open, and deletes the old map
entry — and only after all of that inserts the new entry, which carries
the freshly drawn UUID (the UUID counter advances), request count 0 and
an empty pending table; `get` afterwards returns the new entry. -/
theorem register_evicts_prior_holder (st : RegState) (sub : String)
    (port ws : Nat) (old : TunnelClient)
    (h : mapGet st.tunnels sub = some old) :
    (register st sub port ws).2.1 =
        rejectionActs old.pendingRequests ++ [Act.pendingClear sub]
          ++ (if st.chanState old.ws = wsOPEN then
                [Act.closeChannel old.ws 1000 "Tunnel removed"] else [])
          ++ [Act.mapDelete sub] ++ [Act.mapInsert sub]
      ∧ (register st sub port ws).2.2.id = st.nextUuid
      ∧ (register st sub port ws).1.nextUuid = st.nextUuid + 1
      ∧ (register st sub port ws).2.2.requestCount = 0
      ∧ (register st sub port ws).2.2.pendingRequests = []
      ∧ getTunnel (register st sub port ws).1 sub =
          some (register st sub port ws).2.2 := by
  refine ⟨?_, ?_, ?_, ?_, ?_, ?_⟩ <;>
    simp [register, removeTunnel, getTunnel, h, mapGet_mapSet_self]

/-- Witness for C1: re-register subdomain `a` of the concrete registry
`stA` (prior holder with two pending waiters, open channel 7) on a new
channel 9. -/
theorem register_evicts_prior_holder_witness :
    mapGet stA.tunnels "a" = some clientA ∧
    (register stA "a" 4000 9).2.1 =
      [Act.clearTimer 20, Act.rejectSink 10 "Tunnel disconnected",
       Act.clearTimer 21, Act.rejectSink 11 "Tunnel disconnected",
       Act.pendingClear "a", Act.closeChannel 7 1000 "Tunnel removed",
       Act.mapDelete "a", Act.mapInsert "a"] ∧
    (register stA "a" 4000 9).2.2.id = 5 ∧
    getTunnel (register stA "a" 4000 9).1 "a" = some (register stA "a" 4000 9).2.2 := by
  obtain ⟨htrace, hid, -, -, -, hget⟩ :=
    register_evicts_prior_holder stA "a" 4000 9 clientA (by decide)
  refine ⟨by decide, ?_, hid, hget⟩
  rw [htrace]
  decide

/-- C2: a `Forward` call on a tunnel whose channel is open records the
waiter insertion into the pending table strictly before the transmission
of the request frame: in the trace, the `pendingInsert` of the fresh
waiter under `request.id` occurs at a strictly smaller index than the
`send` of the `request` frame on the tunnel's channel. -/
theorem forward_inserts_waiter_before_send (st : RegState) (sub : String)
    (req : TunnelRequest) (ms : Nat) (c : TunnelClient)
    (hc : mapGet st.tunnels sub = some c) (hopen : st.chanState c.ws = wsOPEN)
    (hsend : st.sendOk c.ws = none) :
    ∃ i j, i < j ∧
      (forwardRequest st sub req ms).2.1.get? i =
        some (Act.pendingInsert sub req.id st.nextSink st.nextTimer) ∧
      (forwardRequest st sub req ms).2.1.get? j =
        some (Act.send c.ws (Frame.request req)) := by
  refine ⟨1, 2, by omega, ?_, ?_⟩ <;> simp [forwardRequest, hc, hopen, hsend]

/-- Witness for C2 on the concrete registry `stG` (tunnel `a`, open
channel 7, sends succeeding). -/
theorem forward_inserts_waiter_before_send_witness :
    mapGet stG.tunnels "a" = some clientF ∧
    ∃ i j, i < j ∧
      (forwardRequest stG "a" reqF 30000).2.1.get? i =
        some (Act.pendingInsert "a" "r9" 0 0) ∧
      (forwardRequest stG "a" reqF 30000).2.1.get? j =
        some (Act.send 7 (Frame.request reqF)) :=
  ⟨by decide,
   forward_inserts_waiter_before_send stG "a" reqF 30000 clientF
     (by decide) (by decide) (by decide)⟩

/-- C5: in any `Forward` call, the per-tunnel request counter moves in
lockstep with frame transmission: when the frame is transmitted (the call
parks a waiter) the trace contains exactly one `send` and the tunnel's
`requestCount` grows by exactly one, and when the transmission fails
synchronously nothing is sent and `requestCount` is unchanged. -/
theorem requestCount_tracks_transmissions (st : RegState) (sub : String)
    (req : TunnelRequest) (ms : Nat) (c : TunnelClient)
    (hc : mapGet st.tunnels sub = some c) :
    (∀ s, (forwardRequest st sub req ms).2.2 = ForwardOutcome.parked s →
        sendCount (forwardRequest st sub req ms).2.1 = 1 ∧
        ∃ c', mapGet (forwardRequest st sub req ms).1.tunnels sub = some c' ∧
          c'.requestCount = c.requestCount + 1) ∧
    (∀ m, (forwardRequest st sub req ms).2.2 = ForwardOutcome.sendError m →
        sendCount (forwardRequest st sub req ms).2.1 = 0 ∧
        ∃ c', mapGet (forwardRequest st sub req ms).1.tunnels sub = some c' ∧
          c'.requestCount = c.requestCount) := by
  by_cases hopen : st.chanState c.ws = wsOPEN
  · cases hsend : st.sendOk c.ws with
    | none =>
        constructor
        · intro s _
          refine ⟨by simp [forwardRequest, hc, hopen, hsend, sendCount], ?_⟩
          refine ⟨{ c with
                      requestCount := c.requestCount + 1,
                      pendingRequests :=
                        mapSet c.pendingRequests req.id ⟨st.nextSink, st.nextTimer⟩ },
                  ?_, rfl⟩
          simp [forwardRequest, hc, hopen, hsend, mapGet_mapSet_self]
        · intro m hm
          simp [forwardRequest, hc, hopen, hsend] at hm
    | some m' =>
        constructor
        · intro s hs
          simp [forwardRequest, hc, hopen, hsend] at hs
        · intro m hm
          refine ⟨by simp [forwardRequest, hc, hopen, hsend, sendCount], ?_⟩
          refine ⟨{ c with
                      pendingRequests :=
                        mapSet c.pendingRequests req.id ⟨st.nextSink, st.nextTimer⟩ },
                  ?_, rfl⟩
          simp [forwardRequest, hc, hopen, hsend, mapGet_mapSet_self]
  · constructor
    · intro s hs
      simp [forwardRequest, hc, hopen] at hs
    · intro m hm
      simp [forwardRequest, hc, hopen] at hm

/-- Witness for C5: a successful forward on `stG` transmits one frame and
bumps the counter from 0 to 1. -/
theorem requestCount_tracks_transmissions_witness :
    sendCount (forwardRequest stG "a" reqF 30000).2.1 = 1 ∧
    ∃ c', mapGet (forwardRequest stG "a" reqF 30000).1.tunnels "a" = some c' ∧
      c'.requestCount = clientF.requestCount + 1 :=
  (requestCount_tracks_transmissions stG "a" reqF 30000 clientF (by decide)).1
    0 (by decide)

/-- Counterexample to C6: on the concrete registry `stF` (tunnel `a`,
open channel 7, `ws.send` throwing `EPIPE`), a forward whose transmission
fails synchronously does NOT remove the waiter from the pending table
(it is still stored under `r9`) and does NOT fail with the tunnel-not-open
error: the promise is rejected with the send error instead. -/
theorem forward_send_failure_counterexample :
    (forwardRequest stF "a" reqF 30000).2.2 = ForwardOutcome.sendError "EPIPE" ∧
    (forwardRequest stF "a" reqF 30000).2.2 ≠ ForwardOutcome.notOpen ∧
    mapGet (forwardRequest stF "a" reqF 30000).1.tunnels "a" =
      some { clientF with pendingRequests := [("r9", ⟨0, 0⟩)] } := by
  decide

/-- C6 as amended: when the transmission of the request frame fails
synchronously, the promise executor aborts after the waiter was inserted,
so the call fails with the transmission error (not tunnel-not-open), the
waiter stays in the pending table with its timer still armed (no timer
cancellation appears in the trace; the waiter is reaped only when the
deadline fires), and `requestCount` is unchanged. -/
theorem forward_send_failure_keeps_waiter (st : RegState) (sub : String)
    (req : TunnelRequest) (ms : Nat) (c : TunnelClient) (msg : String)
    (hc : mapGet st.tunnels sub = some c) (hopen : st.chanState c.ws = wsOPEN)
    (hfail : st.sendOk c.ws = some msg) :
    (forwardRequest st sub req ms).2.2 = ForwardOutcome.sendError msg ∧
    (forwardRequest st sub req ms).2.2 ≠ ForwardOutcome.notOpen ∧
    (∃ c', mapGet (forwardRequest st sub req ms).1.tunnels sub = some c' ∧
       mapGet c'.pendingRequests req.id = some ⟨st.nextSink, st.nextTimer⟩ ∧
       c'.requestCount = c.requestCount) ∧
    (∀ t, Act.clearTimer t ∉ (forwardRequest st sub req ms).2.1) := by
  refine ⟨by simp [forwardRequest, hc, hopen, hfail],
          by simp [forwardRequest, hc, hopen, hfail], ?_, ?_⟩
  · refine ⟨{ c with
                pendingRequests :=
                  mapSet c.pendingRequests req.id ⟨st.nextSink, st.nextTimer⟩ },
            ?_, ?_, rfl⟩
    · simp [forwardRequest, hc, hopen, hfail, mapGet_mapSet_self]
    · simp [mapGet_mapSet_self]
  · intro t
    simp [forwardRequest, hc, hopen, hfail]

/-- Witness for the amended C6 on the concrete registry `stF`. -/
theorem forward_send_failure_keeps_waiter_witness :
    (forwardRequest stF "a" reqF 30000).2.2 = ForwardOutcome.sendError "EPIPE" ∧
    (∃ c', mapGet (forwardRequest stF "a" reqF 30000).1.tunnels "a" = some c' ∧
       mapGet c'.pendingRequests "r9" = some ⟨0, 0⟩ ∧
       c'.requestCount = clientF.requestCount) :=
  have h := forward_send_failure_keeps_waiter stF "a" reqF 30000 clientF "EPIPE"
    (by decide) (by decide) (by decide)
  ⟨h.1, h.2.2.1⟩

/-- C4: a response satisfies a waiter only when it arrives on the channel
of the waiter's owning tunnel and carries the waiter's request id: any
`resolveSink` emitted by `handleResponse` resolves exactly the waiter
stored under `response.id` in the first registry entry owning the given
channel, with that entry's channel equal to the given one; and when no
entry owns the channel, or the owning entry has no pending waiter under
`response.id`, the call returns the state unchanged with an empty trace. -/
theorem handleResponse_owner_scoped (st : RegState) (ch : Nat)
    (resp : TunnelResponse) :
    (st.tunnels.find? (fun p => p.2.ws == ch) = none →
        handleResponse st ch resp = (st, [])) ∧
    (∀ sub c, st.tunnels.find? (fun p => p.2.ws == ch) = some (sub, c) →
        mapGet c.pendingRequests resp.id = none →
        handleResponse st ch resp = (st, [])) ∧
    (∀ s r, Act.resolveSink s r ∈ (handleResponse st ch resp).2 →
        r = resp ∧
        ∃ sub c w, st.tunnels.find? (fun p => p.2.ws == ch) = some (sub, c) ∧
          c.ws = ch ∧ mapGet c.pendingRequests resp.id = some w ∧ s = w.sinkId) := by
  refine ⟨?_, ?_, ?_⟩
  · intro h
    simp [handleResponse, h]
  · intro sub c hf hp
    simp [handleResponse, hf, hp]
  · intro s r hmem
    cases hf : st.tunnels.find? (fun p => p.2.ws == ch) with
    | none => simp [handleResponse, hf] at hmem
    | some sc =>
        obtain ⟨sub, c⟩ := sc
        cases hp : mapGet c.pendingRequests resp.id with
        | none => simp [handleResponse, hf, hp] at hmem
        | some w =>
            have hws : c.ws = ch := by
              have := List.find?_some hf
              simpa using this
            simp [handleResponse, hf, hp] at hmem
            exact ⟨hmem.2, sub, c, w, rfl, hws, hp, hmem.1⟩

/-- Witness for C4 on the concrete registry `stA`: a response with
unknown id `zz` arriving on the owning channel 7 is dropped without any
change. -/
theorem handleResponse_owner_scoped_witness :
    stA.tunnels.find? (fun p => p.2.ws == 7) = some ("a", clientA) ∧
    handleResponse stA 7 respZ = (stA, []) :=
  ⟨by decide,
   (handleResponse_owner_scoped stA 7 respZ).2.1 "a" clientA (by decide) (by decide)⟩

/-! ### Proxy adapter lemmas (C7) -/

theorem setHeader_append (hs : List (String × String)) (k v : String)
    (h : ∀ kv ∈ hs, jsLower kv.1 ≠ jsLower k) :
    setHeader hs k v = hs ++ [(k, v)] := by
  induction hs with
  | nil => rfl
  | cons a rest ih =>
      obtain ⟨a1, a2⟩ := a
      have hne : jsLower a1 ≠ jsLower k := h (a1, a2) (List.mem_cons_self _ _)
      simp only [setHeader, if_neg hne, List.cons_append, List.cons.injEq, true_and]
      exact ih (fun kv hkv => h kv (List.mem_cons_of_mem _ hkv))

theorem applyTunnelHeaders_filter (rest : List (String × String)) :
    ∀ acc, noDupStr (lowerKeys rest) = true →
    (∀ kv ∈ acc, ∀ kv2 ∈ rest, jsLower kv.1 ≠ jsLower kv2.1) →
    applyTunnelHeaders acc rest =
      acc ++ rest.filter (fun kv => !(isHop (jsLower kv.1))) := by
  induction rest with
  | nil =>
      intro acc _ _
      simp [applyTunnelHeaders]
  | cons a rest ih =>
      intro acc hnd hdisj
      obtain ⟨k, v⟩ := a
      have hnd' : noDupStr (lowerKeys rest) = true := by
        simp only [lowerKeys, List.map_cons, noDupStr, Bool.and_eq_true] at hnd
        simpa [lowerKeys] using hnd.2
      have hknotin : ∀ kv2 ∈ rest, jsLower k ≠ jsLower kv2.1 := by
        intro kv2 hkv2 heq
        simp only [lowerKeys, List.map_cons, noDupStr, Bool.and_eq_true,
          List.all_eq_true] at hnd
        have h2 := hnd.1 (jsLower kv2.1) (List.mem_map_of_mem _ hkv2)
        rw [← heq] at h2
        simp at h2
      by_cases hhop : isHop (jsLower k) = true
      · have hstep : applyTunnelHeaders acc ((k, v) :: rest) =
            applyTunnelHeaders acc rest := by
          simp [applyTunnelHeaders, hhop]
        rw [hstep, ih acc hnd'
          (fun kv hkv kv2 hkv2 => hdisj kv hkv kv2 (List.mem_cons_of_mem _ hkv2))]
        simp [hhop]
      · have hset : setHeader acc k v = acc ++ [(k, v)] :=
          setHeader_append acc k v
            (fun kv hkv => hdisj kv hkv (k, v) (List.mem_cons_self _ _))
        have hstep : applyTunnelHeaders acc ((k, v) :: rest) =
            applyTunnelHeaders (acc ++ [(k, v)]) rest := by
          simp [applyTunnelHeaders, hhop, hset]
        rw [hstep, ih (acc ++ [(k, v)]) hnd' ?_]
        · simp [hhop]
        · intro kv hkv kv2 hkv2
          rcases List.mem_append.mp hkv with hkv | hkv
          · exact hdisj kv hkv kv2 (List.mem_cons_of_mem _ hkv2)
          · have : kv = (k, v) := by simpa using hkv
            subst this
            exact hknotin kv2 hkv2

/-- C7: the public HTTP response assembled from a tunnel response `T`
carries `T.statusCode`, exactly `T`'s headers minus those whose names
match the hop-by-hop drop-list case-insensitively, followed by the two
added headers `X-Powered-By: LocalHosted` and `X-Tunnel-Subdomain`, and
its body is the base64-decoded bytes of `T.body` (empty when absent).
The hypotheses state that `T.headers` is a well-formed header map: no
two names equal up to case, and no name colliding with the two added
`X-*` names. -/
theorem proxy_response_mapping (sub : String) (t : TunnelResponse)
    (hnodup : noDupStr (lowerKeys t.headers) = true)
    (hx1 : t.headers.all (fun kv => !(jsLower kv.1 == "x-powered-by")) = true)
    (hx2 : t.headers.all (fun kv => !(jsLower kv.1 == "x-tunnel-subdomain")) = true) :
    (buildPublicResponse sub t).statusCode = t.statusCode ∧
    (buildPublicResponse sub t).headers =
      t.headers.filter (fun kv => !(isHop (jsLower kv.1)))
        ++ [("X-Powered-By", "LocalHosted"), ("X-Tunnel-Subdomain", sub)] ∧
    (buildPublicResponse sub t).body =
      (match t.body with
       | some b => base64Decode b
       | none => []) := by
  have hx1' : ∀ kv ∈ t.headers, jsLower kv.1 ≠ "x-powered-by" := by
    intro kv hkv
    have := List.all_eq_true.mp hx1 kv hkv
    simpa using this
  have hx2' : ∀ kv ∈ t.headers, jsLower kv.1 ≠ "x-tunnel-subdomain" := by
    intro kv hkv
    have := List.all_eq_true.mp hx2 kv hkv
    simpa using this
  have hfilter : applyTunnelHeaders [] t.headers =
      t.headers.filter (fun kv => !(isHop (jsLower kv.1))) := by
    have := applyTunnelHeaders_filter t.headers [] hnodup (by simp)
    simpa using this
  have hxpb : jsLower "X-Powered-By" = "x-powered-by" := by decide
  have hxts : jsLower "X-Tunnel-Subdomain" = "x-tunnel-subdomain" := by decide
  have hstep2 : setHeader (t.headers.filter (fun kv => !(isHop (jsLower kv.1))))
      "X-Powered-By" "LocalHosted" =
      t.headers.filter (fun kv => !(isHop (jsLower kv.1))) ++
        [("X-Powered-By", "LocalHosted")] := by
    refine setHeader_append _ _ _ ?_
    intro kv hkv
    rw [hxpb]
    exact hx1' kv (List.mem_filter.mp hkv).1
  have hstep3 : setHeader (t.headers.filter (fun kv => !(isHop (jsLower kv.1))) ++
        [("X-Powered-By", "LocalHosted")]) "X-Tunnel-Subdomain" sub =
      t.headers.filter (fun kv => !(isHop (jsLower kv.1))) ++
        [("X-Powered-By", "LocalHosted"), ("X-Tunnel-Subdomain", sub)] := by
    have := setHeader_append
      (t.headers.filter (fun kv => !(isHop (jsLower kv.1))) ++
        [("X-Powered-By", "LocalHosted")]) "X-Tunnel-Subdomain" sub ?_
    · simpa using this
    · intro kv hkv
      rw [hxts]
      rcases List.mem_append.mp hkv with hkv | hkv
      · exact hx2' kv (List.mem_filter.mp hkv).1
      · have : kv = ("X-Powered-By", "LocalHosted") := by simpa using hkv
        subst this
        decide
  refine ⟨rfl, ?_, ?_⟩
  · show setHeader (setHeader (applyTunnelHeaders [] t.headers)
        "X-Powered-By" "LocalHosted") "X-Tunnel-Subdomain" sub = _
    rw [hfilter, hstep2, hstep3]
  · show (match t.body with
          | some b => if b = "" then [] else base64Decode b
          | none => ([] : List Nat)) = _
    cases hb : t.body with
    | none => rfl
    | some b =>
        by_cases hbe : b = ""
        · subst hbe
          simp
          decide
        · simp [hbe]

/-- Witness for C7 on the concrete tunnel response `respT` (one ordinary
header, one hop-by-hop header, body decoding to `OK`). -/
theorem proxy_response_mapping_witness :
    (buildPublicResponse "a" respT).statusCode = 201 ∧
    (buildPublicResponse "a" respT).headers =
      [("Content-Type", "text/plain"),
       ("X-Powered-By", "LocalHosted"), ("X-Tunnel-Subdomain", "a")] ∧
    (buildPublicResponse "a" respT).body = [79, 75] := by
  obtain ⟨hs, hh, hb⟩ :=
    proxy_response_mapping "a" respT (by decide) (by decide) (by decide)
  refine ⟨hs, ?_, ?_⟩
  · rw [hh]
    decide
  · rw [hb]
    decide

/-! ### Sanitizer lemmas (C8, C9) -/

theorem collapseDashes_length (l : List Char) :
    (collapseDashes l).length ≤ l.length := by
  induction l with
  | nil => simp [collapseDashes]
  | cons c rest ih =>
      cases rest with
      | nil => simp [collapseDashes]
      | cons d rest' =>
          by_cases hcd : c = '-' ∧ d = '-'
          · simp only [collapseDashes, if_pos hcd]
            exact le_trans ih (by simp)
          · simp only [collapseDashes, if_neg hcd, List.length_cons]
            have h2 := ih
            simp only [List.length_cons] at h2
            omega

theorem collapseDashes_cons_head (rest : List Char) :
    ∀ d : Char, ∃ t, collapseDashes (d :: rest) = d :: t := by
  induction rest with
  | nil =>
      intro d
      exact ⟨[], rfl⟩
  | cons e rest' ih =>
      intro d
      by_cases hde : d = '-' ∧ e = '-'
      · obtain ⟨t, ht⟩ := ih e
        refine ⟨t, ?_⟩
        rw [show collapseDashes (d :: e :: rest') = collapseDashes (e :: rest') by
          simp [collapseDashes, hde], ht, hde.1, hde.2]
      · exact ⟨collapseDashes (e :: rest'), by simp [collapseDashes, hde]⟩

theorem noDD_tail (c : Char) (l : List Char) (h : noDD (c :: l) = true) :
    noDD l = true := by
  cases l with
  | nil => rfl
  | cons d rest =>
      simp only [noDD, Bool.and_eq_true] at h
      exact h.2

theorem noDD_collapseDashes (l : List Char) : noDD (collapseDashes l) = true := by
  induction l with
  | nil => simp [collapseDashes, noDD]
  | cons c rest ih =>
      cases rest with
      | nil => simp [collapseDashes, noDD]
      | cons d rest' =>
          by_cases hcd : c = '-' ∧ d = '-'
          · simpa [collapseDashes, hcd] using ih
          · obtain ⟨t, ht⟩ := collapseDashes_cons_head rest' d
            have hnd : noDD (d :: t) = true := by
              rw [← ht]
              exact ih
            rw [show collapseDashes (c :: d :: rest') = c :: collapseDashes (d :: rest') by
              simp [collapseDashes, hcd], ht]
            simp only [noDD, Bool.and_eq_true]
            refine ⟨?_, hnd⟩
            simp only [Bool.not_eq_true', Bool.and_eq_false_iff, beq_eq_false_iff_ne]
            exact not_and_or.mp hcd

theorem collapseDashes_eq_self (l : List Char) (h : noDD l = true) :
    collapseDashes l = l := by
  induction l with
  | nil => rfl
  | cons c rest ih =>
      cases rest with
      | nil => rfl
      | cons d rest' =>
          have h2 : noDD (d :: rest') = true := noDD_tail _ _ h
          have hcd : ¬(c = '-' ∧ d = '-') := by
            simp only [noDD, Bool.and_eq_true, Bool.not_eq_true',
              Bool.and_eq_false_iff, beq_eq_false_iff_ne] at h
            rcases h.1 with h1 | h1
            · exact fun hand => h1 hand.1
            · exact fun hand => h1 hand.2
          rw [show collapseDashes (c :: d :: rest') = c :: collapseDashes (d :: rest') by
            simp [collapseDashes, hcd]]
          rw [ih h2]
theorem all_collapseDashes (p : Char → Bool) (l : List Char)
    (h : l.all p = true) : (collapseDashes l).all p = true := by
  induction l with
  | nil => simp [collapseDashes]
  | cons c rest ih =>
      cases rest with
      | nil => simpa [collapseDashes] using h
      | cons d rest' =>
          simp only [List.all_cons, Bool.and_eq_true] at h
          by_cases hcd : c = '-' ∧ d = '-'
          · rw [show collapseDashes (c :: d :: rest') = collapseDashes (d :: rest') by
              simp [collapseDashes, hcd]]
            exact ih (by simp [List.all_cons, h.2.1, h.2.2])
          · rw [show collapseDashes (c :: d :: rest') = c :: collapseDashes (d :: rest') by
              simp [collapseDashes, hcd]]
            simp only [List.all_cons, Bool.and_eq_true]
            exact ⟨h.1, ih (by simp [List.all_cons, h.2.1, h.2.2])⟩

theorem removeOneLeadingDash_length (l : List Char) :
    (removeOneLeadingDash l).length ≤ l.length := by
  cases l with
  | nil => simp [removeOneLeadingDash]
  | cons c rest =>
      by_cases hc : c = '-'
      · simp [removeOneLeadingDash, hc]
      · simp [removeOneLeadingDash, hc]

theorem all_removeOneLeadingDash (p : Char → Bool) (l : List Char)
    (h : l.all p = true) : (removeOneLeadingDash l).all p = true := by
  cases l with
  | nil => simpa [removeOneLeadingDash] using h
  | cons c rest =>
      simp only [List.all_cons, Bool.and_eq_true] at h
      by_cases hc : c = '-'
      · simpa [removeOneLeadingDash, hc] using h.2
      · simpa [removeOneLeadingDash, hc, List.all_cons, h.1] using h.2

theorem noDD_removeOneLeadingDash (l : List Char) (h : noDD l = true) :
    noDD (removeOneLeadingDash l) = true := by
  cases l with
  | nil => rfl
  | cons c rest =>
      by_cases hc : c = '-'
      · rw [show removeOneLeadingDash (c :: rest) = rest by
          simp [removeOneLeadingDash, hc]]
        exact noDD_tail _ _ h
      · rwa [show removeOneLeadingDash (c :: rest) = c :: rest by
          simp [removeOneLeadingDash, hc]]

theorem headND_removeOneLeadingDash (l : List Char) (h : noDD l = true) :
    headND (removeOneLeadingDash l) = true := by
  cases l with
  | nil => rfl
  | cons c rest =>
      by_cases hc : c = '-'
      · rw [show removeOneLeadingDash (c :: rest) = rest by
          simp [removeOneLeadingDash, hc]]
        cases rest with
        | nil => rfl
        | cons d rest' =>
            subst hc
            simp only [noDD, Bool.and_eq_true, Bool.not_eq_true',
              Bool.and_eq_false_iff, beq_eq_false_iff_ne] at h
            rcases h.1 with h1 | h1
            · exact absurd rfl h1
            · simpa [headND] using h1
      · rw [show removeOneLeadingDash (c :: rest) = c :: rest by
          simp [removeOneLeadingDash, hc]]
        simpa [headND] using hc

theorem removeOneLeadingDash_eq_self (l : List Char) (h : headND l = true) :
    removeOneLeadingDash l = l := by
  cases l with
  | nil => rfl
  | cons c rest =>
      have hc : ¬c = '-' := by simpa [headND] using h
      simp [removeOneLeadingDash, hc]

theorem removeOneTrailingDash_length (l : List Char) :
    (removeOneTrailingDash l).length ≤ l.length := by
  induction l with
  | nil => simp [removeOneTrailingDash]
  | cons c rest ih =>
      cases rest with
      | nil =>
          by_cases hc : c = '-'
          · simp [removeOneTrailingDash, hc]
          · simp [removeOneTrailingDash, hc]
      | cons d rest' =>
          simp only [removeOneTrailingDash, List.length_cons]
          have h2 := ih
          simp only [List.length_cons] at h2 ⊢
          omega

theorem all_removeOneTrailingDash (p : Char → Bool) (l : List Char)
    (h : l.all p = true) : (removeOneTrailingDash l).all p = true := by
  induction l with
  | nil => simpa [removeOneTrailingDash] using h
  | cons c rest ih =>
      cases rest with
      | nil =>
          by_cases hc : c = '-'
          · simp [removeOneTrailingDash, hc]
          · simpa [removeOneTrailingDash, hc] using h
      | cons d rest' =>
          simp only [List.all_cons, Bool.and_eq_true] at h
          simp only [removeOneTrailingDash, List.all_cons, Bool.and_eq_true]
          exact ⟨h.1, ih (by simp [List.all_cons, h.2.1, h.2.2])⟩

theorem removeOneTrailingDash_cons (d : Char) (rest : List Char) :
    removeOneTrailingDash (d :: rest) = [] ∨
    ∃ t, removeOneTrailingDash (d :: rest) = d :: t := by
  cases rest with
  | nil =>
      by_cases hd : d = '-'
      · left
        simp [removeOneTrailingDash, hd]
      · right
        exact ⟨[], by simp [removeOneTrailingDash, hd]⟩
  | cons e rest' =>
      right
      exact ⟨removeOneTrailingDash (e :: rest'), rfl⟩

theorem noDD_removeOneTrailingDash (l : List Char) (h : noDD l = true) :
    noDD (removeOneTrailingDash l) = true := by
  induction l with
  | nil => rfl
  | cons c rest ih =>
      cases rest with
      | nil =>
          by_cases hc : c = '-'
          · simp [removeOneTrailingDash, hc, noDD]
          · simp [removeOneTrailingDash, hc, noDD]
      | cons d rest' =>
          have htail : noDD (removeOneTrailingDash (d :: rest')) = true :=
            ih (noDD_tail _ _ h)
          rw [show removeOneTrailingDash (c :: d :: rest') =
              c :: removeOneTrailingDash (d :: rest') from rfl]
          rcases removeOneTrailingDash_cons d rest' with he | ⟨t, ht⟩
          · rw [he]
            rfl
          · rw [ht]
            rw [ht] at htail
            simp only [noDD, Bool.and_eq_true] at h ⊢
            exact ⟨h.1, htail⟩

theorem headND_removeOneTrailingDash (l : List Char) (h : headND l = true) :
    headND (removeOneTrailingDash l) = true := by
  cases l with
  | nil => rfl
  | cons c rest =>
      cases rest with
      | nil =>
          by_cases hc : c = '-'
          · simp [removeOneTrailingDash, hc, headND]
          · simpa [removeOneTrailingDash, hc] using h
      | cons d rest' =>
          rw [show removeOneTrailingDash (c :: d :: rest') =
              c :: removeOneTrailingDash (d :: rest') from rfl]
          simpa [headND] using h

theorem lastND_removeOneTrailingDash (l : List Char) (h : noDD l = true) :
    lastND (removeOneTrailingDash l) = true := by
  induction l with
  | nil => rfl
  | cons c rest ih =>
      cases rest with
      | nil =>
          by_cases hc : c = '-'
          · simp [removeOneTrailingDash, hc, lastND]
          · simp [removeOneTrailingDash, hc, lastND]
      | cons d rest' =>
          have htail : lastND (removeOneTrailingDash (d :: rest')) = true :=
            ih (noDD_tail _ _ h)
          rw [show removeOneTrailingDash (c :: d :: rest') =
              c :: removeOneTrailingDash (d :: rest') from rfl]
          rcases removeOneTrailingDash_cons d rest' with he | ⟨t, ht⟩
          · rw [he]
            -- removeOneTrailingDash (d :: rest') = [] forces rest' = [] and d = '-',
            -- so noDD (c :: d :: rest') gives c other than the dash
            cases rest' with
            | nil =>
                by_cases hd : d = '-'
                · simp only [noDD, Bool.and_eq_true, Bool.not_eq_true',
                    Bool.and_eq_false_iff, beq_eq_false_iff_ne] at h
                  rcases h.1 with h1 | h1
                  · simpa [lastND] using h1
                  · exact absurd hd h1
                · simp [removeOneTrailingDash, hd] at he
            | cons e rest'' => simp [removeOneTrailingDash] at he
          · rw [ht]
            rw [ht] at htail
            simpa [lastND] using htail

theorem removeOneTrailingDash_eq_self (l : List Char) (h : lastND l = true) :
    removeOneTrailingDash l = l := by
  induction l with
  | nil => rfl
  | cons c rest ih =>
      cases rest with
      | nil =>
          have hc : ¬c = '-' := by simpa [lastND] using h
          simp [removeOneTrailingDash, hc]
      | cons d rest' =>
          rw [show removeOneTrailingDash (c :: d :: rest') =
              c :: removeOneTrailingDash (d :: rest') from rfl]
          rw [ih (by simpa [lastND] using h)]

theorem jsToLower_allowed (c : Char) (h : isAllowedChar c = true) :
    jsToLower c = c := by
  simp only [isAllowedChar, Bool.or_eq_true, Bool.and_eq_true,
    decide_eq_true_eq, beq_iff_eq] at h
  unfold jsToLower
  rw [if_neg (by omega)]

theorem replaceDisallowed_allowed (c : Char) (h : isAllowedChar c = true) :
    replaceDisallowed c = c := by
  simp [replaceDisallowed, h]

theorem allowed_replaceDisallowed (c : Char) :
    isAllowedChar (replaceDisallowed c) = true := by
  by_cases h : isAllowedChar c = true
  · simpa [replaceDisallowed, h] using h
  · simp only [replaceDisallowed, if_neg h]
    decide

theorem map_self_of_all {f : Char → Char} (l : List Char)
    (h : ∀ c ∈ l, f c = c) : l.map f = l := by
  induction l with
  | nil => rfl
  | cons c rest ih =>
      simp only [List.map_cons, h c (List.mem_cons_self _ _), List.cons.injEq, true_and]
      exact ih (fun d hd => h d (List.mem_cons_of_mem _ hd))

theorem all_map_replaceDisallowed (l : List Char) :
    (l.map replaceDisallowed).all isAllowedChar = true := by
  rw [List.all_map]
  refine List.all_eq_true.mpr ?_
  intro c _
  simpa [Function.comp] using allowed_replaceDisallowed c

theorem all_take (p : Char → Bool) (n : Nat) (l : List Char)
    (h : l.all p = true) : (List.take n l).all p = true :=
  List.all_eq_true.mpr
    (fun c hc => List.all_eq_true.mp h c (List.take_subset n l hc))

theorem noDD_take (n : Nat) (l : List Char) (h : noDD l = true) :
    noDD (List.take n l) = true := by
  induction l generalizing n with
  | nil => simp [noDD]
  | cons c rest ih =>
      cases n with
      | zero => rfl
      | succ k =>
          rw [List.take_succ_cons]
          cases rest with
          | nil => simp [noDD]
          | cons d rest' =>
              cases k with
              | zero => rfl
              | succ j =>
                  rw [List.take_succ_cons]
                  simp only [noDD, Bool.and_eq_true] at h ⊢
                  refine ⟨h.1, ?_⟩
                  have := ih (n := j + 1) h.2
                  rwa [List.take_succ_cons] at this

theorem headND_take (n : Nat) (l : List Char) (h : headND l = true) :
    headND (List.take n l) = true := by
  cases l with
  | nil => simp [headND]
  | cons c rest =>
      cases n with
      | zero => rfl
      | succ k =>
          rw [List.take_succ_cons]
          simpa [headND] using h

theorem expandMap_fixes (low : Char → List Char) (l : List Char)
    (h : ∀ c ∈ l, low c = [c]) : expandMap low l = l := by
  induction l with
  | nil => rfl
  | cons c rest ih =>
      simp only [expandMap, h c (List.mem_cons_self _ _), List.cons_append,
        List.nil_append, List.cons.injEq, true_and]
      exact ih (fun d hd => h d (List.mem_cons_of_mem _ hd))

theorem expandMap_singleton (f : Char → Char) (l : List Char) :
    expandMap (fun c => [f c]) l = l.map f := by
  induction l with
  | nil => rfl
  | cons c rest ih => simp [expandMap, ih]

theorem sanitizeList_eq_listWith (l : List Char) :
    sanitizeList l = sanitizeListWith (fun c => [jsToLower c]) l := by
  unfold sanitizeList sanitizeListWith
  rw [expandMap_singleton]

theorem sanitizeListWith_all_allowed (low : Char → List Char) (l : List Char) :
    (sanitizeListWith low l).all isAllowedChar = true :=
  all_take _ _ _ (all_removeOneTrailingDash _ _ (all_removeOneLeadingDash _ _
    (all_collapseDashes _ _ (all_map_replaceDisallowed _))))

theorem sanitizeListWith_noDD (low : Char → List Char) (l : List Char) :
    noDD (sanitizeListWith low l) = true :=
  noDD_take _ _ (noDD_removeOneTrailingDash _ (noDD_removeOneLeadingDash _
    (noDD_collapseDashes _)))

theorem sanitizeListWith_headND (low : Char → List Char) (l : List Char) :
    headND (sanitizeListWith low l) = true :=
  headND_take _ _ (headND_removeOneTrailingDash _ (headND_removeOneLeadingDash _
    (noDD_collapseDashes _)))

theorem sanitizeListWith_length (low : Char → List Char) (l : List Char) :
    (sanitizeListWith low l).length ≤ 63 := by
  unfold sanitizeListWith
  simpa using List.length_take_le 63 _

theorem sanitizeListWith_second (low : Char → List Char)
    (hlow : ∀ c, isAllowedChar c = true → low c = [c]) (l : List Char) :
    sanitizeListWith low (sanitizeListWith low l) =
      removeOneTrailingDash (sanitizeListWith low l) ∧
    (lastND (sanitizeListWith low l) = true →
      sanitizeListWith low (sanitizeListWith low l) = sanitizeListWith low l) := by
  have hallz := sanitizeListWith_all_allowed low l
  have hexp : expandMap low (sanitizeListWith low l) = sanitizeListWith low l :=
    expandMap_fixes low _ (fun c hc => hlow c (List.all_eq_true.mp hallz c hc))
  have hrep : (sanitizeListWith low l).map replaceDisallowed = sanitizeListWith low l :=
    map_self_of_all _
      (fun c hc => replaceDisallowed_allowed c (List.all_eq_true.mp hallz c hc))
  have hcol : collapseDashes (sanitizeListWith low l) = sanitizeListWith low l :=
    collapseDashes_eq_self _ (sanitizeListWith_noDD low l)
  have hrl : removeOneLeadingDash (sanitizeListWith low l) = sanitizeListWith low l :=
    removeOneLeadingDash_eq_self _ (sanitizeListWith_headND low l)
  have hmain : sanitizeListWith low (sanitizeListWith low l) =
      removeOneTrailingDash (sanitizeListWith low l) := by
    show List.take 63 (removeOneTrailingDash (removeOneLeadingDash (collapseDashes
      ((expandMap low (sanitizeListWith low l)).map replaceDisallowed)))) = _
    rw [hexp, hrep, hcol, hrl]
    exact List.take_of_length_le
      (le_trans (removeOneTrailingDash_length _) (sanitizeListWith_length low l))
  refine ⟨hmain, ?_⟩
  intro hlast
  rw [hmain, removeOneTrailingDash_eq_self _ hlast]

/-- Counterexample to C8: sanitization is not idempotent. On the 65-byte
input of 62 letters, a dash and two letters, the first sanitization
truncates to 63 bytes ending in a dash; the second sanitization trims
that dash, giving a different (62-byte) string. -/
theorem sanitize_not_idempotent_counterexample :
    sanitizeSubdomain (sanitizeSubdomain trunc65) ≠ sanitizeSubdomain trunc65 := by
  decide

/-- C8 as amended: a second application of the sanitizer differs from the
first only by trimming one trailing dash, so sanitization is idempotent
exactly on the inputs whose sanitized form does not end in a dash (a
trailing dash can only arise from the final truncation cutting a
dash-separated run). The first part is stated for an arbitrary
per-character lowercase expansion `low` assumed only to fix the
characters of `[a-z0-9-]` — a property of the real Unicode
`toLowerCase`, whose mappings may otherwise expand characters — so it
holds of the source independently of the ASCII lowercase
instantiation; the second part instantiates it to the repository's
`sanitizeSubdomain`. -/
theorem sanitize_idempotent_unless_trailing_dash :
    (∀ low : Char → List Char, (∀ c, isAllowedChar c = true → low c = [c]) →
        ∀ l : List Char,
          sanitizeListWith low (sanitizeListWith low l) =
            removeOneTrailingDash (sanitizeListWith low l) ∧
          (lastND (sanitizeListWith low l) = true →
            sanitizeListWith low (sanitizeListWith low l) = sanitizeListWith low l)) ∧
    (∀ s : String, lastND (sanitizeSubdomain s).data = true →
        sanitizeSubdomain (sanitizeSubdomain s) = sanitizeSubdomain s) := by
  refine ⟨sanitizeListWith_second, ?_⟩
  intro s hlast
  have hascii : ∀ c, isAllowedChar c = true →
      (fun c => [jsToLower c]) c = [c] := by
    intro c hc
    simp [jsToLower_allowed c hc]
  have e1 : sanitizeList s.data = sanitizeListWith (fun c => [jsToLower c]) s.data :=
    sanitizeList_eq_listWith s.data
  have hlast2 : lastND (sanitizeListWith (fun c => [jsToLower c]) s.data) = true := by
    rw [← e1]
    exact hlast
  have h2 := (sanitizeListWith_second (fun c => [jsToLower c]) hascii s.data).2 hlast2
  show String.mk (sanitizeList (sanitizeList s.data)) = String.mk (sanitizeList s.data)
  rw [sanitizeList_eq_listWith (sanitizeList s.data), e1, h2]

/-- Witness for the amended C8 at the concrete input `Hello World!!`,
whose sanitized form `hello-world` does not end in a dash. -/
theorem sanitize_idempotent_unless_trailing_dash_witness :
    lastND (sanitizeSubdomain "Hello World!!").data = true ∧
    sanitizeSubdomain (sanitizeSubdomain "Hello World!!") =
      sanitizeSubdomain "Hello World!!" :=
  ⟨by decide,
   sanitize_idempotent_unless_trailing_dash.2 "Hello World!!" (by decide)⟩

/-- Counterexample to C9: an input longer than 63 bytes need not sanitize
to exactly 63 bytes — 64 dashes collapse and trim to the empty string. -/
theorem sanitize_long_input_counterexample :
    dashes64.length = 64 ∧ (sanitizeSubdomain dashes64).length = 0 := by
  decide

/-- C9 as amended: the sanitized label never exceeds 63 bytes (the final
truncation step caps it; runs collapsed and dashes trimmed before the cap
can leave fewer than 63 bytes even for long inputs). -/
theorem sanitize_length_le_63 (s : String) :
    (sanitizeSubdomain s).length ≤ 63 := by
  show (sanitizeList s.data).length ≤ 63
  unfold sanitizeList
  simpa using List.length_take_le 63 _

/-- C10: a register message whose subdomain is a non-empty string with no
character of `[a-z0-9]` — here a single space, which is truthy in
JavaScript and therefore chosen over the header hint and the generated
name — sanitizes to the empty string, and neither the session handler nor
`register` re-checks the label grammar, so the registry ends up holding
the empty-string subdomain and `get` of the empty string returns that
tunnel, although the empty string is not a valid subdomain label. -/
theorem register_accepts_invalid_empty_label :
    sanitizeSubdomain " " = "" ∧
    specValidLabel "" = false ∧
    getTunnel
        (handleRegister stEmpty 7 (some " ") none "swift-app-1234" 3000 "example.com").1
        "" =
      some (handleRegister stEmpty 7 (some " ") none "swift-app-1234" 3000
        "example.com").2.2 := by
  decide
